import Mathlib

/-!
Verification of the kube metadata `Database` (pkg/internal/transform/kube/db.go).

The Go `Database` holds six maps guarded by mutexes.  In this sequential
embedding each map is a function to `Option`, mirroring a Go map's
lookup/insert/delete semantics; lock acquisition has no observable effect on
the state and is elided.  Methods become functions `Database → ... → Database`
(mutators) or `Database → ... → Database × result` (lookups, whose returned
state is the receiver's post-state).  The external collaborators (the process
inspector and the cluster informer) are passed as explicit records of
functions, exactly as the Go code consults them through their interfaces.
-/

/-- Insert into a Go-style map: `m[k] = v`. -/
def mapUpd {κ α : Type} [DecidableEq κ] (m : κ → Option α) (k : κ) (v : α) : κ → Option α :=
  fun x => if x = k then some v else m x

/-- Remove from a Go-style map: `delete(m, k)`. -/
def mapDel {κ α : Type} [DecidableEq κ] (m : κ → Option α) (k : κ) : κ → Option α :=
  fun x => if x = k then none else m x

/-- Modelled from the spec: `container.Info` (pkg/internal/helpers/container, not in
this excerpt) carries the container identity used by the database: a container ID
and the PID namespace (`uint32`, modelled as `Nat`; no arithmetic is done on it). -/
structure ContainerInfo where
  ContainerID : String
  PIDNamespace : Nat
  deriving DecidableEq

/-- Modelled from the spec: the IP list carried by pod/service/node objects
(`IPInfo.IPs`). -/
structure IPInfo where
  IPs : List String
  deriving DecidableEq

/-- Modelled from the spec: `kube.PodInfo` as consumed by the database — name,
namespace, the derived service name (`ServiceName()` in Go, a method defined
outside this excerpt, abstracted as a field), and the IP list.  Owner metadata
mutated in place by `FetchPodOwnerInfo` is not read by any database code path,
so it is not part of the value; calls to `FetchPodOwnerInfo` are instead
recorded as events (see `OwnerPodInfo`). -/
structure PodInfo where
  Name : String
  Namespace : String
  ServiceName : String
  IPInfo : IPInfo
  deriving DecidableEq

/-- Modelled from the spec: `kube.ServiceInfo` as consumed by the database. -/
structure ServiceInfo where
  Name : String
  Namespace : String
  IPInfo : IPInfo
  deriving DecidableEq

/-- Modelled from the spec: `kube.NodeInfo` as consumed by the database. -/
structure NodeInfo where
  Name : String
  Namespace : String
  IPInfo : IPInfo
  deriving DecidableEq

/-- The six indexes of the Go `Database` struct (db.go:22-48).  The `informer`
pointer is not state the database mutates; it is passed explicitly to the
operations that consult it. -/
structure Database where
  containerIDs : String → Option ContainerInfo
  namespaces : Nat → Option ContainerInfo
  fetchedPodsCache : Nat → Option PodInfo
  podsByIP : String → Option PodInfo
  svcByIP : String → Option ServiceInfo
  nodeByIP : String → Option NodeInfo

/-- CreateDatabase (db.go:50-60): all six maps empty. -/
def CreateDatabase : Database :=
  { containerIDs := fun _ => none
    namespaces := fun _ => none
    fetchedPodsCache := fun _ => none
    podsByIP := fun _ => none
    svcByIP := fun _ => none
    nodeByIP := fun _ => none }

/-- Modelled from the spec: the process inspector interface
(`container.InfoForPID(pid) -> (ContainerInfo, error)`). -/
structure Inspector where
  infoForPID : Nat → Except String ContainerInfo

/-- Modelled from the spec: the informer interface the database consults
(`kube.Metadata.GetContainerPod(containerID) -> (*PodInfo, found)`).
`FetchPodOwnerInfo` mutates only owner metadata that no database code path
reads, so it is modelled as an observable event rather than a field here:
`OwnerPodInfo` returns the list of pods it was invoked on. -/
structure Informer where
  getContainerPod : String → Option PodInfo

/-- deletePodCache (db.go:155-159). -/
def deletePodCache (db : Database) (ns : Nat) : Database :=
  { db with fetchedPodsCache := mapDel db.fetchedPodsCache ns }

/-- addProcess (db.go:128-136): invalidate the pod cache for the namespace, then
index the ContainerInfo by PID namespace and by container ID. -/
def addProcess (db : Database) (ifp : ContainerInfo) : Database :=
  let db1 := deletePodCache db ifp.PIDNamespace
  let db2 := { db1 with namespaces := mapUpd db1.namespaces ifp.PIDNamespace ifp }
  { db2 with containerIDs := mapUpd db2.containerIDs ifp.ContainerID ifp }

/-- AddProcess (db.go:139-147): resolve the container for `pid` via the
inspector; on error, log (unobservable) and leave the state untouched. -/
def AddProcess (insp : Inspector) (db : Database) (pid : Nat) : Database :=
  match insp.infoForPID pid with
  | Except.error _ => db
  | Except.ok ifp => addProcess db ifp

/-- Body of the loop of OnDeletion (db.go:114-125) for a single container ID:
pop the ContainerInfo; if it was present, drop the pod cache and the namespace
index entry for its PID namespace. -/
def OnDeletionOne (db : Database) (cid : String) : Database :=
  let info? := db.containerIDs cid
  let db1 := { db with containerIDs := mapDel db.containerIDs cid }
  match info? with
  | none => db1
  | some info =>
    let db2 := deletePodCache db1 info.PIDNamespace
    { db2 with namespaces := mapDel db2.namespaces info.PIDNamespace }

/-- OnDeletion (db.go:113-126). -/
def OnDeletion (db : Database) (containerID : List String) : Database :=
  containerID.foldl OnDeletionOne db

/-- CleanProcessCaches (db.go:149-153): only the pod cache entry is dropped; the
namespaces map is deliberately kept. -/
def CleanProcessCaches (db : Database) (ns : Nat) : Database :=
  deletePodCache db ns

/-- Result of `OwnerPodInfo`: the post-state, the returned pod (`none` encodes
the Go `(nil, false)` pair), and the pods `FetchPodOwnerInfo` was invoked on
during the call, in order. -/
structure OwnerPodInfoResult where
  db : Database
  pod : Option PodInfo
  fetched : List PodInfo

/-- OwnerPodInfo (db.go:162-185): pod cache first; on miss resolve namespace →
ContainerInfo → pod via the informer and memoise; on every successful path
`FetchPodOwnerInfo` is called on the returned pod just before returning. -/
def OwnerPodInfo (inf : Informer) (db : Database) (pidNamespace : Nat) : OwnerPodInfoResult :=
  match db.fetchedPodsCache pidNamespace with
  | some pod => ⟨db, some pod, [pod]⟩
  | none =>
    match db.namespaces pidNamespace with
    | none => ⟨db, none, []⟩
    | some info =>
      match inf.getContainerPod info.ContainerID with
      | none => ⟨db, none, []⟩
      | some pod =>
        ⟨{ db with fetchedPodsCache := mapUpd db.fetchedPodsCache pidNamespace pod },
          some pod, [pod]⟩

/-- UpdateNewPodsByIPIndex (db.go:187-195). -/
def UpdateNewPodsByIPIndex (db : Database) (pod : PodInfo) : Database :=
  if pod.IPInfo.IPs.length > 0 then
    { db with podsByIP := pod.IPInfo.IPs.foldl (fun m ip => mapUpd m ip pod) db.podsByIP }
  else db

/-- UpdateDeletedPodsByIPIndex (db.go:197-205). -/
def UpdateDeletedPodsByIPIndex (db : Database) (pod : PodInfo) : Database :=
  if pod.IPInfo.IPs.length > 0 then
    { db with podsByIP := pod.IPInfo.IPs.foldl (fun m ip => mapDel m ip) db.podsByIP }
  else db

/-- PodInfoForIP (db.go:207-211): a pure index read; the first component is the
receiver's (unchanged) post-state, the second the Go return value (`none` for
the `nil` miss sentinel). -/
def PodInfoForIP (db : Database) (ip : String) : Database × Option PodInfo :=
  (db, db.podsByIP ip)

/-- UpdateNewServicesByIPIndex (db.go:213-221). -/
def UpdateNewServicesByIPIndex (db : Database) (svc : ServiceInfo) : Database :=
  if svc.IPInfo.IPs.length > 0 then
    { db with svcByIP := svc.IPInfo.IPs.foldl (fun m ip => mapUpd m ip svc) db.svcByIP }
  else db

/-- UpdateDeletedServicesByIPIndex (db.go:223-231). -/
def UpdateDeletedServicesByIPIndex (db : Database) (svc : ServiceInfo) : Database :=
  if svc.IPInfo.IPs.length > 0 then
    { db with svcByIP := svc.IPInfo.IPs.foldl (fun m ip => mapDel m ip) db.svcByIP }
  else db

/-- ServiceInfoForIP (db.go:233-237). -/
def ServiceInfoForIP (db : Database) (ip : String) : Database × Option ServiceInfo :=
  (db, db.svcByIP ip)

/-- UpdateNewNodesByIPIndex (db.go:239-247). -/
def UpdateNewNodesByIPIndex (db : Database) (svc : NodeInfo) : Database :=
  if svc.IPInfo.IPs.length > 0 then
    { db with nodeByIP := svc.IPInfo.IPs.foldl (fun m ip => mapUpd m ip svc) db.nodeByIP }
  else db

/-- UpdateDeletedNodesByIPIndex (db.go:249-257). -/
def UpdateDeletedNodesByIPIndex (db : Database) (svc : NodeInfo) : Database :=
  if svc.IPInfo.IPs.length > 0 then
    { db with nodeByIP := svc.IPInfo.IPs.foldl (fun m ip => mapDel m ip) db.nodeByIP }
  else db

/-- NodeInfoForIP (db.go:259-263). -/
def NodeInfoForIP (db : Database) (ip : String) : Database × Option NodeInfo :=
  (db, db.nodeByIP ip)

/-- HostNameForIP (db.go:265-285): service, then pod, then node, then `""`. -/
def HostNameForIP (db : Database) (ip : String) : Database × String :=
  (db,
    match db.svcByIP ip with
    | some svc => svc.Name
    | none =>
      match db.podsByIP ip with
      | some pod => pod.Name
      | none =>
        match db.nodeByIP ip with
        | some node => node.Name
        | none => "")

/-- ServiceNameNamespaceForIP (db.go:287-307): same precedence; a pod hit
answers with the pod's derived service name. -/
def ServiceNameNamespaceForIP (db : Database) (ip : String) : Database × (String × String) :=
  (db,
    match db.svcByIP ip with
    | some svc => (svc.Name, svc.Namespace)
    | none =>
      match db.podsByIP ip with
      | some pod => (pod.ServiceName, pod.Namespace)
      | none =>
        match db.nodeByIP ip with
        | some node => (node.Name, node.Namespace)
        | none => ("", ""))

/-- Namespace-index well-formedness: an entry for key `ns` is a ContainerInfo
whose own PID namespace is `ns`.  `addProcess` is the only writer of the map
and establishes it; every reachable state satisfies it. -/
def WellFormed (db : Database) : Prop :=
  ∀ ns info, db.namespaces ns = some info → info.PIDNamespace = ns

/-- Looking up `k` after a fold of insertions of `v` along `l`: a hit if `k ∈ l`,
otherwise the original map. -/
theorem foldl_mapUpd_apply {κ α : Type} [DecidableEq κ] (l : List κ) (m : κ → Option α)
    (v : α) (k : κ) :
    (l.foldl (fun acc i => mapUpd acc i v) m) k = if k ∈ l then some v else m k := by
  induction l generalizing m with
  | nil => simp
  | cons a t ih =>
    rw [List.foldl_cons, ih]
    by_cases ht : k ∈ t
    · simp [ht]
    · by_cases ha : k = a <;> simp [mapUpd, ht, ha]

/-- Looking up `k` after a fold of deletions along `l`: gone if `k ∈ l`,
otherwise the original map. -/
theorem foldl_mapDel_apply {κ α : Type} [DecidableEq κ] (l : List κ) (m : κ → Option α)
    (k : κ) :
    (l.foldl (fun acc i => mapDel acc i) m) k = if k ∈ l then none else m k := by
  induction l generalizing m with
  | nil => simp
  | cons a t ih =>
    rw [List.foldl_cons, ih]
    by_cases ht : k ∈ t
    · simp [ht]
    · by_cases ha : k = a <;> simp [mapDel, ht, ha]

/-- Whatever branch `OnDeletionOne` takes, its container-ID index is the
original one with `cid` removed. -/
theorem OnDeletionOne_containerIDs (db : Database) (cid : String) :
    (OnDeletionOne db cid).containerIDs = mapDel db.containerIDs cid := by
  unfold OnDeletionOne
  cases db.containerIDs cid <;> rfl

/-- Deleting a container ID that is not indexed leaves the database unchanged. -/
theorem OnDeletionOne_of_none (db : Database) (cid : String)
    (h : db.containerIDs cid = none) : OnDeletionOne db cid = db := by
  unfold OnDeletionOne
  rw [h]
  have hm : mapDel db.containerIDs cid = db.containerIDs := by
    funext x
    unfold mapDel
    by_cases hx : x = cid
    · subst hx
      rw [if_pos rfl, h]
    · rw [if_neg hx]
  rw [hm]

/-- Deleting a container ID that is indexed: the explicit resulting state. -/
theorem OnDeletionOne_of_some (db : Database) (cid : String) (info : ContainerInfo)
    (h : db.containerIDs cid = some info) :
    OnDeletionOne db cid =
      { db with containerIDs := mapDel db.containerIDs cid
                fetchedPodsCache := mapDel db.fetchedPodsCache info.PIDNamespace
                namespaces := mapDel db.namespaces info.PIDNamespace } := by
  unfold OnDeletionOne
  rw [h]
  rfl

/-- Processing deletions never resurrects a container-ID entry. -/
theorem OnDeletion_containerIDs_of_none (l : List String) (db : Database) (x : String)
    (h : db.containerIDs x = none) : (OnDeletion db l).containerIDs x = none := by
  induction l generalizing db with
  | nil => exact h
  | cons a t ih =>
    show ((a :: t).foldl OnDeletionOne db).containerIDs x = none
    rw [List.foldl_cons]
    refine ih (OnDeletionOne db a) ?_
    rw [OnDeletionOne_containerIDs]
    unfold mapDel
    by_cases hx : x = a <;> simp [hx, h]

/-- After `OnDeletion`, every ID of the processed list is gone from the
container-ID index. -/
theorem OnDeletion_containerIDs_of_mem (l : List String) (db : Database) (x : String)
    (hx : x ∈ l) : (OnDeletion db l).containerIDs x = none := by
  induction l generalizing db with
  | nil => cases hx
  | cons a t ih =>
    show ((a :: t).foldl OnDeletionOne db).containerIDs x = none
    rw [List.foldl_cons]
    by_cases hxt : x ∈ t
    · exact ih (OnDeletionOne db a) hxt
    · have hxa : x = a := by
        rcases List.mem_cons.mp hx with h | h
        · exact h
        · exact absurd h hxt
      refine OnDeletion_containerIDs_of_none t (OnDeletionOne db a) x ?_
      rw [OnDeletionOne_containerIDs]
      unfold mapDel
      rw [if_pos hxa]

/-- A deletion batch whose IDs are all absent from the container-ID index is a
no-op on the whole state. -/
theorem OnDeletion_of_all_none (l : List String) (db : Database)
    (h : ∀ c ∈ l, db.containerIDs c = none) : OnDeletion db l = db := by
  induction l generalizing db with
  | nil => rfl
  | cons a t ih =>
    show (a :: t).foldl OnDeletionOne db = db
    rw [List.foldl_cons, OnDeletionOne_of_none db a (h a (List.mem_cons_self a t))]
    exact ih db fun c hc => h c (List.mem_cons_of_mem a hc)

/-- The empty database is well-formed. -/
theorem wellFormed_createDatabase : WellFormed CreateDatabase := by
  intro ns info h
  exact Option.noConfusion h

/-- addProcess preserves namespace-index well-formedness. -/
theorem wellFormed_addProcess (db : Database) (ifp : ContainerInfo)
    (h : WellFormed db) : WellFormed (addProcess db ifp) := by
  intro ns info hni
  have hni' : mapUpd db.namespaces ifp.PIDNamespace ifp ns = some info := hni
  unfold mapUpd at hni'
  by_cases hns : ns = ifp.PIDNamespace
  · rw [if_pos hns] at hni'
    cases hni'
    exact hns.symm
  · rw [if_neg hns] at hni'
    exact h ns info hni'

/-- Example container used to instantiate concrete states. -/
def cEx : ContainerInfo := { ContainerID := "c1", PIDNamespace := 7 }

/-- A second example container sharing `cEx`'s PID namespace. -/
def c2Ex : ContainerInfo := { ContainerID := "c2", PIDNamespace := 7 }

/-- Example pod used to instantiate concrete states. -/
def podEx : PodInfo :=
  { Name := "web-1", Namespace := "prod", ServiceName := "web", IPInfo := { IPs := ["10.0.0.5"] } }

/-- Example inspector that always fails resolution. -/
def inspEx : Inspector := { infoForPID := fun _ => Except.error "proc exited" }

/-- Example informer resolving every container to `podEx`. -/
def infEx : Informer := { getContainerPod := fun _ => some podEx }

/-- C1: `HostNameForIP` and `ServiceNameNamespaceForIP` resolve with fixed
precedence service > pod > node > empty: a service-index hit answers with the
service's identity (regardless of the pod index, so an IP present in both
indexes yields the service's identity, never the pod's); otherwise a pod-index
hit answers with the pod tier; otherwise the node index; otherwise the
empty-string sentinel. -/
theorem hostNameForIP_precedence (db : Database) (ip : String) :
    (∀ svc, db.svcByIP ip = some svc →
      (HostNameForIP db ip).2 = svc.Name ∧
        (ServiceNameNamespaceForIP db ip).2 = (svc.Name, svc.Namespace)) ∧
    (db.svcByIP ip = none → ∀ pod, db.podsByIP ip = some pod →
      (HostNameForIP db ip).2 = pod.Name ∧
        (ServiceNameNamespaceForIP db ip).2 = (pod.ServiceName, pod.Namespace)) ∧
    (db.svcByIP ip = none → db.podsByIP ip = none → ∀ node, db.nodeByIP ip = some node →
      (HostNameForIP db ip).2 = node.Name ∧
        (ServiceNameNamespaceForIP db ip).2 = (node.Name, node.Namespace)) ∧
    (db.svcByIP ip = none → db.podsByIP ip = none → db.nodeByIP ip = none →
      (HostNameForIP db ip).2 = "" ∧ (ServiceNameNamespaceForIP db ip).2 = ("", "")) := by
  refine ⟨?_, ?_, ?_, ?_⟩
  · intro svc hsvc
    exact ⟨by simp [HostNameForIP, hsvc], by simp [ServiceNameNamespaceForIP, hsvc]⟩
  · intro hsvc pod hpod
    exact ⟨by simp [HostNameForIP, hsvc, hpod], by simp [ServiceNameNamespaceForIP, hsvc, hpod]⟩
  · intro hsvc hpod node hnode
    exact ⟨by simp [HostNameForIP, hsvc, hpod, hnode],
      by simp [ServiceNameNamespaceForIP, hsvc, hpod, hnode]⟩
  · intro hsvc hpod hnode
    exact ⟨by simp [HostNameForIP, hsvc, hpod, hnode],
      by simp [ServiceNameNamespaceForIP, hsvc, hpod, hnode]⟩

/-- C3: `OwnerPodInfo` returns not-found exactly when, on a pod-cache miss,
either no ContainerInfo is indexed for the namespace or the informer cannot
resolve the container to a pod; a cache hit returns the cached pod; on the
cache-miss success path it returns the resolved pod and stores it in the
pod-owner cache under that namespace. -/
theorem ownerPodInfo_resolution (inf : Informer) (db : Database) (ns : Nat) :
    ((OwnerPodInfo inf db ns).pod = none ↔
      db.fetchedPodsCache ns = none ∧
        (db.namespaces ns).bind (fun info => inf.getContainerPod info.ContainerID) = none) ∧
    (∀ pod, db.fetchedPodsCache ns = some pod → (OwnerPodInfo inf db ns).pod = some pod) ∧
    (∀ info pod, db.fetchedPodsCache ns = none → db.namespaces ns = some info →
      inf.getContainerPod info.ContainerID = some pod →
      (OwnerPodInfo inf db ns).pod = some pod ∧
        (OwnerPodInfo inf db ns).db.fetchedPodsCache ns = some pod) := by
  rcases h1 : db.fetchedPodsCache ns with _ | pod0
  · rcases h2 : db.namespaces ns with _ | info0
    · simp [OwnerPodInfo, h1, h2]
    · rcases h3 : inf.getContainerPod info0.ContainerID with _ | pod1
      · simp [OwnerPodInfo, h1, h2, h3]
        intro info pod hinfo
        subst hinfo
        simp [h3]
      · simp [OwnerPodInfo, h1, h2, h3, mapUpd]
        intro info pod hinfo hget
        subst hinfo
        rw [h3] at hget
        exact Option.some.inj hget
  · simp [OwnerPodInfo, h1]

/-- C8: whenever `OwnerPodInfo` returns a pod, `FetchPodOwnerInfo` was invoked
on exactly that pod before the call returned — on the cache-hit path as well as
on the cache-miss resolution path. -/
theorem ownerPodInfo_fetch_on_success (inf : Informer) (db : Database) (ns : Nat)
    (pod : PodInfo) (h : (OwnerPodInfo inf db ns).pod = some pod) :
    (OwnerPodInfo inf db ns).fetched = [pod] := by
  rcases h1 : db.fetchedPodsCache ns with _ | pod0
  · rcases h2 : db.namespaces ns with _ | info0
    · simp [OwnerPodInfo, h1, h2] at h
    · rcases h3 : inf.getContainerPod info0.ContainerID with _ | pod1
      · simp [OwnerPodInfo, h1, h2, h3] at h
      · simp [OwnerPodInfo, h1, h2, h3] at h ⊢
        exact h
  · simp [OwnerPodInfo, h1] at h ⊢
    exact h

/-- C8 witness: a concrete cache-miss resolution where the returned pod heads
the fetch trace. -/
theorem ownerPodInfo_fetch_on_success_witness :
    (OwnerPodInfo infEx (addProcess CreateDatabase cEx) 7).fetched = [podEx] :=
  ownerPodInfo_fetch_on_success infEx (addProcess CreateDatabase cEx) 7 podEx (by decide)

/-- C4: after `UpdateNewPodsByIPIndex(pod)` (for a pod with a non-empty IP
list), `PodInfoForIP` answers `pod` for every IP of the pod; after a subsequent
`UpdateDeletedPodsByIPIndex(pod)`, it answers the `nil` miss sentinel for every
such IP. -/
theorem podsByIP_roundtrip (db : Database) (pod : PodInfo) (ip : String)
    (hne : pod.IPInfo.IPs ≠ []) (hip : ip ∈ pod.IPInfo.IPs) :
    (PodInfoForIP (UpdateNewPodsByIPIndex db pod) ip).2 = some pod ∧
    (PodInfoForIP (UpdateDeletedPodsByIPIndex (UpdateNewPodsByIPIndex db pod) pod) ip).2
      = none := by
  have hlen : pod.IPInfo.IPs.length > 0 := List.length_pos.mpr hne
  constructor
  · simp [PodInfoForIP, UpdateNewPodsByIPIndex, hlen, foldl_mapUpd_apply, hip]
  · simp [PodInfoForIP, UpdateDeletedPodsByIPIndex, UpdateNewPodsByIPIndex, hlen,
      foldl_mapDel_apply, hip]

/-- C4 witness: the round trip at a concrete pod and its single IP. -/
theorem podsByIP_roundtrip_witness :
    (PodInfoForIP (UpdateNewPodsByIPIndex CreateDatabase podEx) "10.0.0.5").2 = some podEx ∧
    (PodInfoForIP
      (UpdateDeletedPodsByIPIndex (UpdateNewPodsByIPIndex CreateDatabase podEx) podEx)
      "10.0.0.5").2 = none :=
  podsByIP_roundtrip CreateDatabase podEx "10.0.0.5" (by decide) (by decide)

/-- C6: when the inspector's `InfoForPID` returns an error, `AddProcess` leaves
the entire database state unchanged — no partial insert into any index. -/
theorem addProcess_error_leaves_state (insp : Inspector) (db : Database) (pid : Nat)
    (e : String) (h : insp.infoForPID pid = Except.error e) :
    AddProcess insp db pid = db := by
  unfold AddProcess
  rw [h]

/-- C6 witness: a concrete failing inspector call is a no-op. -/
theorem addProcess_error_leaves_state_witness :
    AddProcess inspEx CreateDatabase 100 = CreateDatabase :=
  addProcess_error_leaves_state inspEx CreateDatabase 100 "proc exited" rfl

/-- C7: `CleanProcessCaches(ns)` removes at most the pod-owner cache entry for
`ns`: the container-ID index, the namespace index and the three IP indexes are
untouched, and every pod-owner cache key other than `ns` keeps its value. -/
theorem cleanProcessCaches_frame (db : Database) (ns : Nat) :
    (CleanProcessCaches db ns).containerIDs = db.containerIDs ∧
    (CleanProcessCaches db ns).namespaces = db.namespaces ∧
    (CleanProcessCaches db ns).podsByIP = db.podsByIP ∧
    (CleanProcessCaches db ns).svcByIP = db.svcByIP ∧
    (CleanProcessCaches db ns).nodeByIP = db.nodeByIP ∧
    (CleanProcessCaches db ns).fetchedPodsCache ns = none ∧
    ∀ k, k ≠ ns → (CleanProcessCaches db ns).fetchedPodsCache k = db.fetchedPodsCache k := by
  refine ⟨rfl, rfl, rfl, rfl, rfl, ?_, ?_⟩
  · show mapDel db.fetchedPodsCache ns ns = none
    unfold mapDel
    rw [if_pos rfl]
  · intro k hk
    show mapDel db.fetchedPodsCache ns k = db.fetchedPodsCache k
    unfold mapDel
    rw [if_neg hk]

/-- C9: the five IP/name lookups return the receiver state unchanged — none of
the six indexes moves — while `OwnerPodInfo` is the one read operation that
does mutate state (it populates the pod-owner cache on a resolving miss). -/
theorem lookups_preserve_state (db : Database) (ip : String) :
    (PodInfoForIP db ip).1 = db ∧
    (ServiceInfoForIP db ip).1 = db ∧
    (NodeInfoForIP db ip).1 = db ∧
    (HostNameForIP db ip).1 = db ∧
    (ServiceNameNamespaceForIP db ip).1 = db ∧
    (∃ inf2 db2 ns2, (OwnerPodInfo inf2 db2 ns2).db ≠ db2) := by
  refine ⟨rfl, rfl, rfl, rfl, rfl, infEx, addProcess CreateDatabase cEx, 7, ?_⟩
  intro hcontra
  have h7 := congrArg (fun d => d.fetchedPodsCache 7) hcontra
  exact absurd h7 (by decide)

/-- C2: after `OnDeletion([cid])` on a well-formed state, the container-ID
index has no entry keyed by `cid`, the namespace index has no entry referencing
`cid`'s ContainerInfo, and the pod-owner cache has no entry for that
ContainerInfo's PID namespace. -/
theorem onDeletion_removes_container (db : Database) (cid : String) (info : ContainerInfo)
    (hwf : WellFormed db) (hc : db.containerIDs cid = some info) :
    (OnDeletion db [cid]).containerIDs cid = none ∧
    (∀ ns, (OnDeletion db [cid]).namespaces ns ≠ some info) ∧
    (OnDeletion db [cid]).fetchedPodsCache info.PIDNamespace = none := by
  have h1 : OnDeletion db [cid] = OnDeletionOne db cid := rfl
  rw [h1, OnDeletionOne_of_some db cid info hc]
  refine ⟨?_, ?_, ?_⟩
  · show mapDel db.containerIDs cid cid = none
    unfold mapDel
    rw [if_pos rfl]
  · intro ns hns
    have hns' : mapDel db.namespaces info.PIDNamespace ns = some info := hns
    unfold mapDel at hns'
    by_cases hcase : ns = info.PIDNamespace
    · rw [if_pos hcase] at hns'
      exact Option.noConfusion hns'
    · rw [if_neg hcase] at hns'
      exact hcase (hwf ns info hns').symm
  · show mapDel db.fetchedPodsCache info.PIDNamespace info.PIDNamespace = none
    unfold mapDel
    rw [if_pos rfl]

/-- C2 witness: deleting the only container of a concrete one-container state
empties all three container-side indexes. -/
theorem onDeletion_removes_container_witness :
    (OnDeletion (addProcess CreateDatabase cEx) [cEx.ContainerID]).containerIDs
      cEx.ContainerID = none ∧
    (∀ ns, (OnDeletion (addProcess CreateDatabase cEx) [cEx.ContainerID]).namespaces ns
      ≠ some cEx) ∧
    (OnDeletion (addProcess CreateDatabase cEx) [cEx.ContainerID]).fetchedPodsCache
      cEx.PIDNamespace = none :=
  onDeletion_removes_container (addProcess CreateDatabase cEx) cEx.ContainerID cEx
    (wellFormed_addProcess CreateDatabase cEx wellFormed_createDatabase) (by decide)

/-- C5: `OnDeletion` run twice with the same list ends in the same state as run
once, and `OnDeletion` of a container ID absent from the container-ID index
leaves the entire database unchanged. -/
theorem onDeletion_idempotent (db : Database) (l : List String) (cid : String)
    (habs : db.containerIDs cid = none) :
    OnDeletion (OnDeletion db l) l = OnDeletion db l ∧ OnDeletion db [cid] = db := by
  constructor
  · exact OnDeletion_of_all_none l (OnDeletion db l)
      (fun c hc => OnDeletion_containerIDs_of_mem l db c hc)
  · show OnDeletionOne db cid = db
    exact OnDeletionOne_of_none db cid habs

/-- C5 witness: a concrete repeated batch, and a concrete unknown-ID no-op. -/
theorem onDeletion_idempotent_witness :
    OnDeletion (OnDeletion (addProcess CreateDatabase cEx) ["c1", "zz"]) ["c1", "zz"]
      = OnDeletion (addProcess CreateDatabase cEx) ["c1", "zz"] ∧
    OnDeletion (addProcess CreateDatabase cEx) ["zz"] = addProcess CreateDatabase cEx :=
  onDeletion_idempotent (addProcess CreateDatabase cEx) ["c1", "zz"] "zz" (by decide)

/-- C10: with `c1` indexed, `addProcess` of a different container `c2` sharing
`c1`'s PID namespace makes the namespace entry point to `c2`; `OnDeletion` of
`c1`'s ID still deletes that namespace entry unconditionally — removing the
mapping that references `c2` — and invalidates the pod-owner cache for the
namespace, while `c2` remains in the container-ID index. -/
theorem onDeletion_namespace_unconditional (db : Database) (c1 c2 : ContainerInfo)
    (hns : c1.PIDNamespace = c2.PIDNamespace)
    (hcid : c1.ContainerID ≠ c2.ContainerID)
    (hc1 : db.containerIDs c1.ContainerID = some c1) :
    (addProcess db c2).namespaces c1.PIDNamespace = some c2 ∧
    (OnDeletion (addProcess db c2) [c1.ContainerID]).namespaces c1.PIDNamespace = none ∧
    (OnDeletion (addProcess db c2) [c1.ContainerID]).fetchedPodsCache c1.PIDNamespace
      = none ∧
    (OnDeletion (addProcess db c2) [c1.ContainerID]).containerIDs c2.ContainerID
      = some c2 := by
  have hadd1 : (addProcess db c2).containerIDs c1.ContainerID = some c1 := by
    show mapUpd db.containerIDs c2.ContainerID c2 c1.ContainerID = some c1
    unfold mapUpd
    rw [if_neg hcid, hc1]
  have hone : OnDeletion (addProcess db c2) [c1.ContainerID]
      = OnDeletionOne (addProcess db c2) c1.ContainerID := rfl
  rw [hone, OnDeletionOne_of_some (addProcess db c2) c1.ContainerID c1 hadd1]
  refine ⟨?_, ?_, ?_, ?_⟩
  · show mapUpd db.namespaces c2.PIDNamespace c2 c1.PIDNamespace = some c2
    unfold mapUpd
    rw [if_pos hns]
  · show mapDel (addProcess db c2).namespaces c1.PIDNamespace c1.PIDNamespace = none
    unfold mapDel
    rw [if_pos rfl]
  · show mapDel (addProcess db c2).fetchedPodsCache c1.PIDNamespace c1.PIDNamespace = none
    unfold mapDel
    rw [if_pos rfl]
  · show mapDel (addProcess db c2).containerIDs c1.ContainerID c2.ContainerID = some c2
    unfold mapDel
    rw [if_neg (Ne.symm hcid)]
    show mapUpd db.containerIDs c2.ContainerID c2 c2.ContainerID = some c2
    unfold mapUpd
    rw [if_pos rfl]

/-- C10 witness: the scenario at concrete containers `cEx` and `c2Ex` sharing
PID namespace 7. -/
theorem onDeletion_namespace_unconditional_witness :
    (addProcess (addProcess CreateDatabase cEx) c2Ex).namespaces cEx.PIDNamespace
      = some c2Ex ∧
    (OnDeletion (addProcess (addProcess CreateDatabase cEx) c2Ex)
      [cEx.ContainerID]).namespaces cEx.PIDNamespace = none ∧
    (OnDeletion (addProcess (addProcess CreateDatabase cEx) c2Ex)
      [cEx.ContainerID]).fetchedPodsCache cEx.PIDNamespace = none ∧
    (OnDeletion (addProcess (addProcess CreateDatabase cEx) c2Ex)
      [cEx.ContainerID]).containerIDs c2Ex.ContainerID = some c2Ex :=
  onDeletion_namespace_unconditional (addProcess CreateDatabase cEx) cEx c2Ex rfl
    (by decide) (by decide)
